import Mathlib

/-!
Verification development for the Local-Business-Lead-Finder repository.

The repository is a React application whose core logic is the
discovery/enrichment reconciliation pipeline in the App components
(`SearchForm.tsx` bundle), backed by two service modules: the Gemini
service (`findBusinessesStream`, `researchBusiness`, `geocodeAddress`)
and the Google Places service (`makePlacesRequest`, `searchPlacesInArea`,
`getPlaceDetails`).

This file shallowly embeds that logic:

* strings are Lean `String` (stream text is handled as `List Char`);
* the mutable React state `businesses` is an explicit `List Business`
  threaded through the store-update functions that the source passes to
  `setBusinesses`;
* asynchronous external calls (Gemini research, geocoding, fetch) are
  parameters of the embedded functions: a call that can reject is an
  `Except`/`Option` argument, so every embedded operation is total and
  "never throws" is visible in its type;
* numeric latitude/longitude values are abstracted to `Int` because no
  claim performs coordinate arithmetic; only their presence/absence and
  propagation matter.
-/

namespace LeadFinder

/-! ## Data model (types.ts) -/

/-- Business workflow status enum from `types.ts` (string-valued in the
source: 'Discovered', 'Emailed', 'Replied'). -/
inductive BusinessStatus where
  | discovered
  | emailed
  | replied
deriving DecidableEq, Repr

/-- String value of a `BusinessStatus`, as declared by the TS enum. -/
def BusinessStatus.label : BusinessStatus → String
  | .discovered => "Discovered"
  | .emailed => "Emailed"
  | .replied => "Replied"

/-- Candidate record from `types.ts` (interface `Business`).  The map
variant of the App also attaches `lat`/`lng` coordinates dynamically, so
they are modelled as optional fields defaulting to absent; the numeric
type is abstracted to `Int`. -/
structure Business where
  id : String
  discoveryName : String
  discoveryWebsite : String
  companyName : String
  contactName : String
  address : String
  phone : String
  email : String
  description : String
  status : BusinessStatus
  dateFound : String
  emailThreadId : String
  isResearching : Bool
  areaSearched : String
  businessType : String
  lat : Option Int := none
  lng : Option Int := none
deriving DecidableEq, Repr

/-- Discovery event payload from `types.ts` (interface `BusinessDiscovery`). -/
structure BusinessDiscovery where
  name : String
  website : String
deriving DecidableEq, Repr

/-- Enrichment response shape from `types.ts`
(interface `ResearchedBusinessData`). -/
structure ResearchedBusinessData where
  companyName : String
  contactName : String
  address : String
  phone : String
  email : String
  description : String
deriving DecidableEq, Repr

/-- Geocoding result `{ lat, lng }` (numeric type abstracted to `Int`). -/
structure Coords where
  lat : Int
  lng : Int
deriving DecidableEq, Repr

/-! ## Enrichment merge-back (App.tsx store updaters)

The source merges an enrichment completion into the store with
`setBusinesses(prev => prev.map(b => b.id === target ? merged : b))`.
Each updater below is the function passed to that `map`.
-/

/-- Object spread `{ ...b, ...researchedData }`: every field of the
research response overwrites the corresponding field of the record. -/
def mergeResearch (b : Business) (rd : ResearchedBusinessData) : Business :=
  { b with
      companyName := rd.companyName
      contactName := rd.contactName
      address := rd.address
      phone := rd.phone
      email := rd.email
      description := rd.description }

/-- Object spread `{ ..., ...coords }` where `coords` may be undefined:
spreading `undefined` adds nothing. -/
def mergeCoords (b : Business) (co : Option Coords) : Business :=
  match co with
  | none => b
  | some c => { b with lat := some c.lat, lng := some c.lng }

/-- Store update on enrichment success:
`prev.map(b => b.id === business.id ? { ...b, ...researchedData, ...coords, isResearching: false } : b)`. -/
def applyResearchSuccess (tid : String) (rd : ResearchedBusinessData)
    (co : Option Coords) (s : List Business) : List Business :=
  s.map fun b =>
    if b.id = tid then { mergeResearch b rd with lat := (mergeCoords b co).lat, lng := (mergeCoords b co).lng, isResearching := false } else b

/-- Store update on enrichment failure:
`prev.map(b => b.id === business.id ? { ...b, description: 'Research failed.', isResearching: false } : b)`. -/
def applyResearchFailure (tid : String) (s : List Business) : List Business :=
  s.map fun b =>
    if b.id = tid then { b with description := "Research failed.", isResearching := false } else b

/-- Store update on a failed retry:
`prev.map(b => b.id === businessId ? { ...b, description: 'Research failed again.', isResearching: false } : b)`. -/
def applyRetryFailure (tid : String) (s : List Business) : List Business :=
  s.map fun b =>
    if b.id = tid then { b with description := "Research failed again.", isResearching := false } else b

/-- Store update marking a candidate as in-flight:
`prev.map(b => b.id === businessId ? { ...b, isResearching: true } : b)`. -/
def markResearching (tid : String) (s : List Business) : List Business :=
  s.map fun b =>
    if b.id = tid then { b with isResearching := true } else b

/-- Condition guarding the geocoding call in `processResearchAndGeocoding`:
`if (researchedData.address && researchedData.address !== 'Not Found')`. -/
def shouldGeocode (rd : ResearchedBusinessData) : Bool :=
  rd.address ≠ "" && rd.address ≠ "Not Found"

/-- Embedding of `processResearchAndGeocoding` (the geocoding App variant).
The awaited `researchBusiness` call is the `research` argument (it rejects
with an error or resolves with data); the awaited `geocodeAddress` call is
the `geocode` argument (it resolves with coordinates or `null`).  The
`try`/`catch` of the source becomes the `match` on `research`: the failure
branch records the failure on the record and the function always returns
a store, never an error. -/
def processResearchAndGeocoding (business : Business)
    (research : Except String ResearchedBusinessData)
    (geocode : String → Option Coords)
    (s : List Business) : List Business :=
  match research with
  | Except.ok researchedData =>
      let coords := if shouldGeocode researchedData then geocode researchedData.address else none
      applyResearchSuccess business.id researchedData coords s
  | Except.error _ => applyResearchFailure business.id s

/-- Embedding of `handleRetryResearch` (the streaming-only App variant):
looks up the candidate, marks it in-flight, then awaits
`researchBusiness`; on success merges the data and stamps `dateFound`
with the retry date, on failure records 'Research failed again.'. -/
def handleRetryResearch (today : String) (businessId : String)
    (research : Except String ResearchedBusinessData)
    (s : List Business) : List Business :=
  match s.find? (fun b => b.id = businessId) with
  | none => s
  | some _ =>
      let s1 := markResearching businessId s
      match research with
      | Except.ok researchedData =>
          s1.map fun b =>
            if b.id = businessId then { mergeResearch b researchedData with isResearching := false, dateFound := today } else b
      | Except.error _ => applyRetryFailure businessId s1

/-! ## Discovery admission (handleSearch / onDiscovery, streaming App variants)

`handleSearch` creates a fresh `discoveredWebsitesThisRun` set per run and
installs the `onDiscovery` callback, which performs dedupe-and-insert
inside one `setBusinesses` functional update.  `Date.now()` is threaded as
the `now` argument of each event.
-/

/-- Candidate id synthesized by `onDiscovery`:
the template literal `${Date.now()}-${discovery.website}`. -/
def mkBusinessId (now : Nat) (website : String) : String :=
  toString now ++ "-" ++ website

/-- State visible to one discovery run: the React `businesses` array plus
the per-run `discoveredWebsitesThisRun` set (modelled as a list). -/
structure DiscoveryRunState where
  businesses : List Business
  discoveredWebsitesThisRun : List String
deriving Repr

/-- Rejection condition of the `onDiscovery` callback:
`!discovery.website || alreadyExists` where `alreadyExists` is
`currentBusinesses.some(b => b.discoveryWebsite === discovery.website) || discoveredWebsitesThisRun.has(discovery.website)`. -/
def admitGuard (st : DiscoveryRunState) (discovery : BusinessDiscovery) : Bool :=
  discovery.website = ""
    || (st.businesses.any (fun b => b.discoveryWebsite = discovery.website)
        || st.discoveredWebsitesThisRun.contains discovery.website)

/-- Embedding of the `onDiscovery` callback: reject the discovery when its
website is empty or a candidate with the same website already exists in
the store or was admitted earlier this run; otherwise append a fresh
pending candidate and remember the website for this run. -/
def onDiscovery (location businessType dateFound : String) (now : Nat)
    (st : DiscoveryRunState) (discovery : BusinessDiscovery) : DiscoveryRunState :=
  if admitGuard st discovery then st
  else
    let newBusiness : Business :=
      { id := mkBusinessId now discovery.website
        discoveryName := discovery.name
        discoveryWebsite := discovery.website
        companyName := ""
        contactName := ""
        address := ""
        phone := ""
        email := ""
        description := ""
        status := BusinessStatus.discovered
        dateFound := dateFound
        emailThreadId := "N/A"
        isResearching := true
        areaSearched := location
        businessType := businessType }
    { businesses := st.businesses ++ [newBusiness]
      discoveredWebsitesThisRun := discovery.website :: st.discoveredWebsitesThisRun }

/-- Processing of a whole sequence of discovery events (each tagged with
its `Date.now()` value) through the `onDiscovery` callback. -/
def runDiscoveries (location businessType dateFound : String)
    (events : List (Nat × BusinessDiscovery)) (st : DiscoveryRunState) : DiscoveryRunState :=
  events.foldl (fun s e => onDiscovery location businessType dateFound e.1 s e.2) st

/-- Error banner text set by the `catch` branch of `handleSearch`. -/
def discoveryErrorMessage : String :=
  "An error occurred during discovery. Please check the console and try again."

/-- App-level state touched by `handleSearch`: the store, the error
banner and the research status message. -/
structure AppState where
  businesses : List Business
  error : Option String
  researchMessage : String
deriving Repr

/-- Embedding of `handleSearch` (streaming App variant): a fresh run set
is created, `findBusinessesStream` drives `onDiscovery` for each
discovered candidate, and the terminal outcome of the stream is either
success (status message updated) or a rejection (caught once, surfaced as
the single error banner; the store keeps everything admitted before the
failure). `events` are the discoveries delivered before the terminal
outcome and `streamFails` tells whether the stream call rejected. -/
def handleSearch (location businessType dateFound : String)
    (events : List (Nat × BusinessDiscovery)) (streamFails : Bool)
    (app : AppState) : AppState :=
  let run := runDiscoveries location businessType dateFound events
    { businesses := app.businesses, discoveredWebsitesThisRun := [] }
  if streamFails then
    { businesses := run.businesses
      error := some discoveryErrorMessage
      researchMessage := "" }
  else
    { businesses := run.businesses
      error := none
      researchMessage := "Discovery stream complete. Research may still be in progress." }

/-! ## Streaming discovery parser (geminiService.findBusinessesStream)

The Gemini response arrives as text chunks.  The source appends each
chunk to a buffer, repeatedly splits off every complete line at `'\n'`,
parses each line of the form `name | url`, and after the stream ends
flushes whatever remains in the buffer.  Text is modelled as `List Char`.
-/

/-- Whitespace recognised by the `trim()` calls of the parser. -/
def wsChar (c : Char) : Bool :=
  c = ' ' || c = '\t' || c = '\n' || c = '\r'

/-- JavaScript `String.prototype.trim`: drop leading and trailing
whitespace. -/
def trimChars (l : List Char) : List Char :=
  ((l.dropWhile wsChar).reverse.dropWhile wsChar).reverse

/-- Leading characters of an accepted website URL
(`website.startsWith('http')`). -/
def httpPrefix : List Char := ['h', 't', 't', 'p']

/-- Parsing of one delivered line: trim it, require a `'|'`, split on
`'|'`, trim the first two parts, and accept when both are non-empty and
the website starts with `http` (same checks in the loop body and in the
end-of-stream flush). -/
def parseStreamLine (raw : List Char) : Option BusinessDiscovery :=
  let line := trimChars raw
  if line.contains '|' then
    match line.splitOn '|' with
    | p0 :: p1 :: _ =>
        let name := trimChars p0
        let website := trimChars p1
        if name ≠ [] && website ≠ [] && httpPrefix.isPrefixOf website then
          some { name := name.asString, website := website.asString }
        else none
    | _ => none
  else none

/-- Repeated `buffer.indexOf('\n')` extraction: split a buffer into the
list of complete (newline-terminated) lines and the trailing remainder
that stays buffered. -/
def splitCompleteLines : List Char → List (List Char) × List Char
  | [] => ([], [])
  | c :: cs =>
      if c = '\n' then
        let r := splitCompleteLines cs
        ([] :: r.1, r.2)
      else
        match splitCompleteLines cs with
        | ([], rest) => ([], c :: rest)
        | (l :: ls, rest) => ((c :: l) :: ls, rest)

/-- Processing of one chunk: append it to the buffer, extract every
complete line, emit the discoveries parsed from them in order. -/
def streamStep (st : List BusinessDiscovery × List Char) (chunk : List Char) :
    List BusinessDiscovery × List Char :=
  let split := splitCompleteLines (st.2 ++ chunk)
  (st.1 ++ split.1.filterMap parseStreamLine, split.2)

/-- Embedding of the parsing loop of `findBusinessesStream`: fold the
chunks through `streamStep` starting from an empty buffer, then flush the
final buffer through the same per-line parser.  The returned list is the
sequence of `onDiscovery` emissions. -/
def findBusinessesStream (chunks : List (List Char)) : List BusinessDiscovery :=
  let st := chunks.foldl streamStep ([], [])
  st.1 ++ (parseStreamLine st.2).toList

/-! ## CSV export (exportToCsv)

The repository bundles three App iterations, each with its own
`exportToCsv`.  The two map-capable iterations share one column order;
the streaming-only iteration swaps Description and Website.  Every
variant escapes each cell by wrapping it in double quotes and doubling
embedded double quotes (`cell.replace(/"/g, '""')`).
-/

/-- Replacement `cell.replace(/"/g, '""')`: double every double quote. -/
def escapeQuotes : List Char → List Char
  | [] => []
  | c :: cs =>
      if c = '"' then '"' :: '"' :: escapeQuotes cs
      else c :: escapeQuotes cs

/-- Cell escaping rule of `escapeCsvCell`: wrap the replaced text in
double quotes. -/
def escapeCsvCell (cell : List Char) : List Char :=
  '"' :: escapeQuotes cell ++ ['"']

/-- Standard CSV unquoting of the body of a quoted cell: a doubled quote
denotes a literal quote, a single quote closes the cell (and nothing may
follow for a lone cell), and a missing closing quote is an error. -/
def csvUnquoteBody : List Char → Option (List Char)
  | [] => none
  | c :: rest =>
      if c = '"' then
        match rest with
        | [] => some []
        | c2 :: rest2 =>
            if c2 = '"' then (csvUnquoteBody rest2).map (fun l => '"' :: l)
            else none
      else (csvUnquoteBody rest).map (fun l => c :: l)

/-- Standard CSV parse of one quoted cell: require the opening quote and
unquote the body. -/
def csvParseCell : List Char → Option (List Char)
  | c :: rest => if c = '"' then csvUnquoteBody rest else none
  | [] => none

/-- String-level cell escaping, as applied to header and row cells. -/
def escapeCsvCellS (cell : String) : String :=
  (escapeCsvCell cell.data).asString

/-- Header row of `exportToCsv` in the two map-capable App iterations. -/
def csvHeaders : List String :=
  ["Company Name", "Contact Name", "Address", "Phone", "Email", "Website",
   "Description", "Status", "Date Found/Updated", "Email Thread ID",
   "Area Searched", "Business Type"]

/-- Header row of `exportToCsv` in the streaming-only App iteration
(Description precedes Website there). -/
def csvHeadersStreamApp : List String :=
  ["Company Name", "Contact Name", "Address", "Phone", "Email", "Description",
   "Website", "Status", "Date Found/Updated", "Email Thread ID",
   "Area Searched", "Business Type"]

/-- Row cells of one candidate in the two map-capable App iterations. -/
def csvRow (b : Business) : List String :=
  [b.companyName, b.contactName, b.address, b.phone, b.email,
   b.discoveryWebsite, b.description, b.status.label, b.dateFound,
   b.emailThreadId, b.areaSearched, b.businessType]

/-- Row cells of one candidate in the streaming-only App iteration. -/
def csvRowStreamApp (b : Business) : List String :=
  [b.companyName, b.contactName, b.address, b.phone, b.email,
   b.description, b.discoveryWebsite, b.status.label, b.dateFound,
   b.emailThreadId, b.areaSearched, b.businessType]

/-- Modelled from the spec: the fixed CSV column order the specification
prescribes for the export ("Company Name, Contact Name, Address, Phone,
Email, Website, Description, Status, Date Found/Updated, Email Thread ID,
Area Searched, Business Type"). -/
def specCsvColumnOrder : List String :=
  ["Company Name", "Contact Name", "Address", "Phone", "Email", "Website",
   "Description", "Status", "Date Found/Updated", "Email Thread ID",
   "Area Searched", "Business Type"]

/-- One serialized CSV line: cells escaped and joined with commas,
terminated by CRLF. -/
def csvLine (cells : List String) : String :=
  String.intercalate "," (cells.map escapeCsvCellS) ++ "\r\n"

/-- CSV content built by `exportToCsv` (map-capable iterations), before
URI encoding. -/
def exportToCsv (businesses : List Business) : String :=
  "data:text/csv;charset=utf-8," ++ csvLine csvHeaders
    ++ String.join ((businesses.map csvRow).map csvLine)

/-! ## Places and geocoding services -/

/-- Outcome of a `fetch` as the service code observes it: a parsed JSON
value when `response.ok`, otherwise the HTTP status and error body. -/
inductive FetchResult (α : Type) where
  | ok (value : α)
  | httpError (status : Nat) (body : String)

/-- Embedding of `makePlacesRequest` (placesService): reject immediately
when the Google Maps API key is not configured, otherwise propagate the
fetch outcome, turning a non-ok HTTP response into a rejection.  The
function is total: a rejection is a returned `Except.error`, not a
crash. -/
def makePlacesRequest {α : Type} (apiKey : Option String)
    (fetchResult : FetchResult α) : Except String α :=
  match apiKey with
  | none => Except.error "Google Maps API key is not configured"
  | some _ =>
      match fetchResult with
      | FetchResult.ok v => Except.ok v
      | FetchResult.httpError status body =>
          Except.error ("Places API error: " ++ toString status ++ " - " ++ body)

/-- Geocoding HTTP response body: its `status` string and the
`geometry.location` of each entry of `results`. -/
structure GeoResponse where
  status : String
  results : List Coords

/-- Embedding of `geocodeAddress` (geminiService): return `null` when the
Google Maps API key is missing, when the fetch itself fails, or when the
response status is not OK / has no results; otherwise the first result
location. -/
def geocodeAddress (apiKey : Option String) (fetchResult : Option GeoResponse)
    (address : String) : Option Coords :=
  match apiKey with
  | none => none
  | some _ =>
      match fetchResult with
      | none => none
      | some data => if data.status = "OK" then data.results.head? else none

/-! ## Helper lemmas -/

theorem digitChar_ne_dash (n : Nat) : Nat.digitChar n ≠ '-' := by
  rcases Nat.lt_or_ge n 16 with h | h
  · interval_cases n <;> decide
  · unfold Nat.digitChar
    repeat rw [if_neg (by omega)]
    decide

theorem toDigitsCore_no_dash : ∀ (fuel n : Nat) (ds : List Char),
    (∀ c ∈ ds, c ≠ '-') → ∀ c ∈ Nat.toDigitsCore 10 fuel n ds, c ≠ '-' := by
  intro fuel
  induction fuel with
  | zero => intro n ds h; rw [Nat.toDigitsCore.eq_def]; exact h
  | succ f ih =>
    intro n ds h
    rw [Nat.toDigitsCore.eq_def]
    dsimp only
    split
    · intro c hc
      rcases List.mem_cons.mp hc with rfl | hmem
      · exact digitChar_ne_dash _
      · exact h c hmem
    · apply ih
      intro c hc
      rcases List.mem_cons.mp hc with rfl | hmem
      · exact digitChar_ne_dash _
      · exact h c hmem

theorem repr_no_dash (n : Nat) : ∀ c ∈ (Nat.repr n).data, c ≠ '-' := by
  intro c hc
  have hdata : (Nat.repr n).data = Nat.toDigits 10 n := rfl
  rw [hdata] at hc
  exact toDigitsCore_no_dash _ _ _ (by intro c h; cases h) c hc

theorem append_cons_sep_inj {x : Char} : ∀ (a1 : List Char) {b1 a2 b2 : List Char},
    x ∉ a1 → x ∉ a2 → a1 ++ x :: b1 = a2 ++ x :: b2 → b1 = b2 := by
  intro a1
  induction a1 with
  | nil =>
    intro b1 a2 b2 _ h2 heq
    rw [List.nil_append] at heq
    cases a2 with
    | nil =>
      rw [List.nil_append] at heq
      simpa using heq
    | cons y a2t =>
      rw [List.cons_append] at heq
      injection heq with hy _
      exact absurd (show x ∈ y :: a2t by rw [hy]; exact List.mem_cons_self y a2t) h2
  | cons y a1t ih =>
    intro b1 a2 b2 h1 h2 heq
    rw [List.cons_append] at heq
    cases a2 with
    | nil =>
      rw [List.nil_append] at heq
      injection heq with hy _
      exact absurd (show x ∈ y :: a1t by rw [← hy]; exact List.mem_cons_self y a1t) h1
    | cons z a2t =>
      rw [List.cons_append] at heq
      injection heq with hyz htail
      exact ih (fun hm => h1 (List.mem_cons_of_mem y hm))
        (fun hm => h2 (List.mem_cons_of_mem z hm)) htail

theorem mkBusinessId_inj_website {t1 t2 : Nat} {w1 w2 : String}
    (h : mkBusinessId t1 w1 = mkBusinessId t2 w2) : w1 = w2 := by
  have hdata : (toString t1).data ++ '-' :: w1.data
      = (toString t2).data ++ '-' :: w2.data := by
    have h1 := congrArg String.data h
    simpa [mkBusinessId, String.data_append] using h1
  have hw : w1.data = w2.data :=
    append_cons_sep_inj _ (fun hm => repr_no_dash t1 '-' hm rfl)
      (fun hm => repr_no_dash t2 '-' hm rfl) hdata
  exact String.ext hw

/-- Websites of the candidates in the store, in insertion order. -/
def storeWebsites (s : List Business) : List String :=
  s.map fun b => b.discoveryWebsite

/-- Invariant maintained by streaming admission: stored websites are
pairwise distinct and non-empty, the per-run set only names websites
already in the store, and every id was synthesized by `mkBusinessId`
from the record's own website. -/
def DiscoveryInv (st : DiscoveryRunState) : Prop :=
  (storeWebsites st.businesses).Nodup
  ∧ (∀ w ∈ st.discoveredWebsitesThisRun, w ∈ storeWebsites st.businesses)
  ∧ (∀ b ∈ st.businesses, b.discoveryWebsite ≠ "")
  ∧ (∀ b ∈ st.businesses, ∃ t, b.id = mkBusinessId t b.discoveryWebsite)

theorem admitGuard_iff (st : DiscoveryRunState) (d : BusinessDiscovery)
    (hrun : ∀ w ∈ st.discoveredWebsitesThisRun, w ∈ storeWebsites st.businesses) :
    admitGuard st d = true ↔ (d.website = "" ∨ d.website ∈ storeWebsites st.businesses) := by
  constructor
  · intro h
    rcases Bool.or_eq_true_iff.mp h with h1 | h1
    · exact Or.inl (by simpa using h1)
    · rcases Bool.or_eq_true_iff.mp h1 with h2 | h2
      · right
        obtain ⟨b, hb, hb2⟩ := List.any_eq_true.mp h2
        exact (of_decide_eq_true hb2) ▸ List.mem_map_of_mem _ hb
      · exact Or.inr (hrun _ (by simpa using h2))
  · intro h
    rcases h with h | h
    · exact Bool.or_eq_true_iff.mpr (Or.inl (by simpa using h))
    · refine Bool.or_eq_true_iff.mpr (Or.inr (Bool.or_eq_true_iff.mpr (Or.inl ?_)))
      obtain ⟨b, hb, hb2⟩ := List.mem_map.mp h
      exact List.any_eq_true.mpr ⟨b, hb, decide_eq_true hb2⟩

theorem onDiscovery_characterization (loc bt date : String) (now : Nat)
    (st : DiscoveryRunState) (d : BusinessDiscovery) (hinv : DiscoveryInv st) :
    DiscoveryInv (onDiscovery loc bt date now st d)
    ∧ storeWebsites (onDiscovery loc bt date now st d).businesses
        = (if d.website = "" ∨ d.website ∈ storeWebsites st.businesses
           then storeWebsites st.businesses
           else storeWebsites st.businesses ++ [d.website]) := by
  obtain ⟨hnodup, hrun, hne, hid⟩ := hinv
  by_cases hcond : d.website = "" ∨ d.website ∈ storeWebsites st.businesses
  · have hskip : onDiscovery loc bt date now st d = st := by
      unfold onDiscovery
      rw [(admitGuard_iff st d hrun).mpr hcond]
      simp
    rw [hskip, if_pos hcond]
    exact ⟨⟨hnodup, hrun, hne, hid⟩, rfl⟩
  · have hguard : admitGuard st d = false := by
      rw [Bool.eq_false_iff]
      intro h
      exact hcond ((admitGuard_iff st d hrun).mp h)
    push_neg at hcond
    obtain ⟨hw, hmem⟩ := hcond
    have hinsert : onDiscovery loc bt date now st d =
        { businesses := st.businesses ++
            [{ id := mkBusinessId now d.website
               discoveryName := d.name
               discoveryWebsite := d.website
               companyName := ""
               contactName := ""
               address := ""
               phone := ""
               email := ""
               description := ""
               status := BusinessStatus.discovered
               dateFound := date
               emailThreadId := "N/A"
               isResearching := true
               areaSearched := loc
               businessType := bt }]
          discoveredWebsitesThisRun := d.website :: st.discoveredWebsitesThisRun } := by
      unfold onDiscovery
      rw [hguard]
      simp
    rw [hinsert, if_neg (by push_neg; exact ⟨hw, hmem⟩)]
    have hwebsites : storeWebsites (st.businesses ++
        [{ id := mkBusinessId now d.website
           discoveryName := d.name
           discoveryWebsite := d.website
           companyName := ""
           contactName := ""
           address := ""
           phone := ""
           email := ""
           description := ""
           status := BusinessStatus.discovered
           dateFound := date
           emailThreadId := "N/A"
           isResearching := true
           areaSearched := loc
           businessType := bt }]) = storeWebsites st.businesses ++ [d.website] := by
      simp [storeWebsites]
    refine ⟨⟨?_, ?_, ?_, ?_⟩, hwebsites⟩
    · rw [hwebsites]
      simp [List.nodup_append, hnodup, hmem]
    · intro w hw2
      rw [hwebsites]
      rcases List.mem_cons.mp hw2 with rfl | hmemrun
      · simp
      · exact List.mem_append_left _ (hrun _ hmemrun)
    · intro b hb
      rcases List.mem_append.mp hb with hb | hb
      · exact hne b hb
      · simp at hb
        rw [hb]
        exact hw
    · intro b hb
      rcases List.mem_append.mp hb with hb | hb
      · exact hid b hb
      · simp at hb
        rw [hb]
        exact ⟨now, rfl⟩

theorem runDiscoveries_characterization (loc bt date : String) :
    ∀ (events : List (Nat × BusinessDiscovery)) (st : DiscoveryRunState),
    DiscoveryInv st →
    DiscoveryInv (runDiscoveries loc bt date events st)
    ∧ ∀ w, w ∈ storeWebsites (runDiscoveries loc bt date events st).businesses
        ↔ (w ∈ storeWebsites st.businesses
            ∨ (w ≠ "" ∧ w ∈ events.map fun e => e.2.website)) := by
  intro events
  induction events with
  | nil =>
    intro st hinv
    refine ⟨hinv, ?_⟩
    intro w
    simp [runDiscoveries]
  | cons e es ih =>
    intro st hinv
    have hstep := onDiscovery_characterization loc bt date e.1 st e.2 hinv
    have hfold : runDiscoveries loc bt date (e :: es) st
        = runDiscoveries loc bt date es (onDiscovery loc bt date e.1 st e.2) := rfl
    rw [hfold]
    obtain ⟨hinv2, hweb⟩ := hstep
    obtain ⟨hinv3, hmem⟩ := ih (onDiscovery loc bt date e.1 st e.2) hinv2
    refine ⟨hinv3, ?_⟩
    intro w
    rw [hmem w, hweb]
    rw [List.map_cons]
    by_cases hcond : e.2.website = "" ∨ e.2.website ∈ storeWebsites st.businesses
    · rw [if_pos hcond]
      constructor
      · rintro (h | h)
        · exact Or.inl h
        · exact Or.inr ⟨h.1, List.mem_cons_of_mem _ h.2⟩
      · rintro (h | ⟨hne2, hmem2⟩)
        · exact Or.inl h
        · rcases List.mem_cons.mp hmem2 with rfl | h2
          · rcases hcond with h3 | h3
            · exact absurd h3 hne2
            · exact Or.inl h3
          · exact Or.inr ⟨hne2, h2⟩
    · rw [if_neg hcond]
      push_neg at hcond
      constructor
      · rintro (h | h)
        · rcases List.mem_append.mp h with h2 | h2
          · exact Or.inl h2
          · simp only [List.mem_singleton] at h2
            refine Or.inr ⟨by rw [h2]; exact hcond.1, ?_⟩
            rw [h2]
            exact List.mem_cons_self _ _
        · exact Or.inr ⟨h.1, List.mem_cons_of_mem _ h.2⟩
      · rintro (h | ⟨hne2, hmem2⟩)
        · exact Or.inl (List.mem_append_left _ h)
        · rcases List.mem_cons.mp hmem2 with rfl | h2
          · exact Or.inl (List.mem_append_right _ (by simp))
          · exact Or.inr ⟨hne2, h2⟩

theorem splitCompleteLines_no_newline_rest : ∀ (x : List Char),
    '\n' ∉ (splitCompleteLines x).2 := by
  intro x
  induction x with
  | nil => simp [splitCompleteLines]
  | cons c cs ih =>
    by_cases hc : c = '\n'
    · subst hc
      simp only [splitCompleteLines, if_pos rfl]
      exact ih
    · simp only [splitCompleteLines, if_neg hc]
      rcases hA : splitCompleteLines cs with ⟨A1, A2⟩
      rw [hA] at ih
      cases A1 with
      | nil =>
        simp only []
        intro hmem
        rcases List.mem_cons.mp hmem with h | h
        · exact hc h.symm
        · exact ih h
      | cons l ls =>
        simp only []
        exact ih

theorem splitCompleteLines_of_no_newline : ∀ (x : List Char),
    '\n' ∉ x → splitCompleteLines x = ([], x) := by
  intro x
  induction x with
  | nil => simp [splitCompleteLines]
  | cons c cs ih =>
    intro hmem
    have hc : c ≠ '\n' := fun h => hmem (h ▸ List.mem_cons_self c cs)
    have hcs : '\n' ∉ cs := fun h => hmem (List.mem_cons_of_mem c h)
    simp only [splitCompleteLines, if_neg hc, ih hcs]

theorem splitCompleteLines_append : ∀ (a b : List Char),
    splitCompleteLines (a ++ b)
      = ((splitCompleteLines a).1
            ++ (splitCompleteLines ((splitCompleteLines a).2 ++ b)).1,
         (splitCompleteLines ((splitCompleteLines a).2 ++ b)).2) := by
  intro a
  induction a with
  | nil =>
    intro b
    simp [splitCompleteLines]
  | cons c cs ih =>
    intro b
    rw [List.cons_append]
    by_cases hc : c = '\n'
    · subst hc
      simp only [splitCompleteLines, if_pos rfl]
      rw [ih b]
      simp
    · simp only [splitCompleteLines, if_neg hc]
      rcases hA : splitCompleteLines cs with ⟨A1, A2⟩
      have ih2 := ih b
      rw [hA] at ih2
      simp only [] at ih2
      cases A1 with
      | nil =>
        simp only []
        rw [ih2]
        simp only [List.nil_append]
        rcases hQ : splitCompleteLines (A2 ++ b) with ⟨Q1, Q2⟩
        rw [List.cons_append]
        simp only [splitCompleteLines, if_neg hc, hQ]
      | cons l ls =>
        simp only []
        rw [ih2]
        simp

theorem streamFold_characterization : ∀ (chunks : List (List Char))
    (acc : List BusinessDiscovery) (buf : List Char), '\n' ∉ buf →
    chunks.foldl streamStep (acc, buf)
      = (acc ++ (splitCompleteLines (buf ++ chunks.flatten)).1.filterMap parseStreamLine,
         (splitCompleteLines (buf ++ chunks.flatten)).2) := by
  intro chunks
  induction chunks with
  | nil =>
    intro acc buf hbuf
    rw [List.foldl_nil, List.flatten_nil, List.append_nil,
      splitCompleteLines_of_no_newline buf hbuf]
    simp
  | cons ch rest ih =>
    intro acc buf hbuf
    rw [List.foldl_cons]
    have hstep : streamStep (acc, buf) ch
        = (acc ++ (splitCompleteLines (buf ++ ch)).1.filterMap parseStreamLine,
           (splitCompleteLines (buf ++ ch)).2) := rfl
    rw [hstep, ih _ _ (splitCompleteLines_no_newline_rest (buf ++ ch)),
      List.flatten_cons, ← List.append_assoc,
      splitCompleteLines_append (buf ++ ch) rest.flatten]
    simp [List.filterMap_append]

theorem csvUnquoteBody_escapeQuotes : ∀ (s : List Char),
    csvUnquoteBody (escapeQuotes s ++ ['"']) = some s := by
  intro s
  induction s with
  | nil => simp [escapeQuotes, csvUnquoteBody]
  | cons c cs ih =>
    by_cases hc : c = '"'
    · subst hc
      simp only [escapeQuotes, if_pos rfl, List.cons_append]
      simp only [csvUnquoteBody, if_pos rfl, if_true, List.append_eq]
      rw [ih]
      rfl
    · simp only [escapeQuotes, if_neg hc, List.cons_append]
      rw [csvUnquoteBody.eq_def]
      simp only [if_neg hc, List.append_eq]
      rw [ih]
      rfl

theorem csvParseCell_escapeCsvCell (s : List Char) :
    csvParseCell (escapeCsvCell s) = some s := by
  simp only [escapeCsvCell, csvParseCell, if_pos rfl]
  exact csvUnquoteBody_escapeQuotes s

theorem map_update_frame (f : Business → Business) (tid : String)
    (s : List Business) (i : Nat) (b : Business)
    (hs : s[i]? = some b) (hne : b.id ≠ tid) :
    (s.map fun x => if x.id = tid then f x else x)[i]? = some b := by
  rw [List.getElem?_map, hs]
  simp [if_neg hne]

theorem map_update_hit (f : Business → Business) (tid : String)
    (s : List Business) (i : Nat) (b : Business)
    (hs : s[i]? = some b) (heq : b.id = tid) :
    (s.map fun x => if x.id = tid then f x else x)[i]? = some (f b) := by
  rw [List.getElem?_map, hs]
  simp [if_pos heq]

theorem runDiscoveries_monotone (loc bt date : String) :
    ∀ (events : List (Nat × BusinessDiscovery)) (st : DiscoveryRunState),
    ∃ tail, (runDiscoveries loc bt date events st).businesses = st.businesses ++ tail := by
  intro events
  induction events with
  | nil =>
    intro st
    exact ⟨[], by simp [runDiscoveries]⟩
  | cons e es ih =>
    intro st
    have hfold : runDiscoveries loc bt date (e :: es) st
        = runDiscoveries loc bt date es (onDiscovery loc bt date e.1 st e.2) := rfl
    obtain ⟨tail, htail⟩ := ih (onDiscovery loc bt date e.1 st e.2)
    rw [hfold, htail]
    unfold onDiscovery
    by_cases hg : admitGuard st e.2 = true
    · rw [if_pos hg]
      exact ⟨tail, rfl⟩
    · rw [if_neg hg]
      simp only [List.append_assoc]
      exact ⟨_, rfl⟩

/-! ## Concrete sample data for witnesses and counterexamples -/

/-- Sample candidate whose enrichment fields were already populated by an
earlier successful research pass. -/
def sampleEnriched : Business :=
  { id := "b1"
    discoveryName := "Acme Cafe"
    discoveryWebsite := "https://acme.test"
    companyName := "Acme Cafe LLC"
    contactName := "Jo Doe"
    address := "1 Main St"
    phone := "555-1234"
    email := "jo@acme.test"
    description := "A neighborhood cafe."
    status := BusinessStatus.discovered
    dateFound := "2026-01-01"
    emailThreadId := "N/A"
    isResearching := false
    areaSearched := "San Francisco, CA"
    businessType := "Coffee Shops" }

/-- Second sample candidate with a different id and website. -/
def sampleOther : Business :=
  { id := "b2"
    discoveryName := "Beta Bar"
    discoveryWebsite := "https://beta.test"
    companyName := ""
    contactName := ""
    address := ""
    phone := ""
    email := ""
    description := ""
    status := BusinessStatus.discovered
    dateFound := "2026-01-02"
    emailThreadId := "N/A"
    isResearching := false
    areaSearched := "San Francisco, CA"
    businessType := "Coffee Shops" }

/-- Sample enrichment response in which the source explicitly marked the
optional fields 'Not Found'. -/
def sampleNotFoundResearch : ResearchedBusinessData :=
  { companyName := "Acme Cafe LLC"
    contactName := "Not Found"
    address := "Not Found"
    phone := "Not Found"
    email := "Not Found"
    description := "A cafe in San Francisco." }

/-! ## Claims -/

/-- Claim C1 counterexample: the claim states that no previously
non-empty field is overwritten with an empty string or the literal
'Not Found' by an enrichment merge.  On the code this fails: merging an
enrichment completion whose phone is 'Not Found' into a candidate whose
phone is the non-empty '555-1234' leaves the store with phone
'Not Found'. -/
theorem c1_not_found_overwrites_nonempty_phone :
    sampleEnriched.phone = "555-1234"
    ∧ ((processResearchAndGeocoding sampleEnriched
          (Except.ok sampleNotFoundResearch) (fun _ => none)
          [sampleEnriched]).map fun b => b.phone) = ["Not Found"] :=
  ⟨rfl, rfl⟩

/-- Claim C1 (amended): the enrichment merge-back copies every field of
the research response into the matched record verbatim — including empty
and 'Not Found' values, which therefore can overwrite previously
non-empty fields; 'Not Found' is treated specially only when deciding
whether to geocode the returned address, never at merge time.  The
non-enriched fields of the record are untouched and the record leaves the
in-flight state. -/
theorem c1_amended_merge_copies_fields_verbatim
    (tid : String) (rd : ResearchedBusinessData) (co : Option Coords)
    (s : List Business) (i : Nat) (b : Business)
    (hs : s[i]? = some b) (hid : b.id = tid) :
    ∃ b2, (applyResearchSuccess tid rd co s)[i]? = some b2
      ∧ b2.companyName = rd.companyName
      ∧ b2.contactName = rd.contactName
      ∧ b2.address = rd.address
      ∧ b2.phone = rd.phone
      ∧ b2.email = rd.email
      ∧ b2.description = rd.description
      ∧ b2.id = b.id
      ∧ b2.discoveryName = b.discoveryName
      ∧ b2.discoveryWebsite = b.discoveryWebsite
      ∧ b2.status = b.status
      ∧ b2.dateFound = b.dateFound
      ∧ b2.isResearching = false
      ∧ shouldGeocode rd = (rd.address ≠ "" && rd.address ≠ "Not Found") := by
  have h2 := map_update_hit (fun x => { mergeResearch x rd with lat := (mergeCoords x co).lat, lng := (mergeCoords x co).lng, isResearching := false }) tid s i b hs hid
  exact ⟨_, h2, rfl, rfl, rfl, rfl, rfl, rfl, rfl, rfl, rfl, rfl, rfl, rfl, rfl⟩

/-- Claim C1 (amended) witness: the amended theorem applied to the
sample candidate and the 'Not Found' enrichment response. -/
theorem c1_amended_merge_copies_fields_verbatim_witness :
    ∃ b2, (applyResearchSuccess "b1" sampleNotFoundResearch none [sampleEnriched])[0]?
        = some b2
      ∧ b2.companyName = sampleNotFoundResearch.companyName
      ∧ b2.contactName = sampleNotFoundResearch.contactName
      ∧ b2.address = sampleNotFoundResearch.address
      ∧ b2.phone = sampleNotFoundResearch.phone
      ∧ b2.email = sampleNotFoundResearch.email
      ∧ b2.description = sampleNotFoundResearch.description
      ∧ b2.id = sampleEnriched.id
      ∧ b2.discoveryName = sampleEnriched.discoveryName
      ∧ b2.discoveryWebsite = sampleEnriched.discoveryWebsite
      ∧ b2.status = sampleEnriched.status
      ∧ b2.dateFound = sampleEnriched.dateFound
      ∧ b2.isResearching = false
      ∧ shouldGeocode sampleNotFoundResearch
          = (sampleNotFoundResearch.address ≠ ""
              && sampleNotFoundResearch.address ≠ "Not Found") :=
  c1_amended_merge_copies_fields_verbatim "b1" sampleNotFoundResearch none
    [sampleEnriched] 0 sampleEnriched (by rfl) (by rfl)

/-- Claim C2 counterexample: the claim states the dedupe key of streaming
discovery is the name+website pair, so the two distinct pairs
("A", "https://x") and ("B", "https://x") should both be admitted.  On
the code the key is the website alone: after processing both events the
store holds exactly one candidate, the first one. -/
theorem c2_pair_key_dedupe_fails :
    (("A", "https://x") : String × String) ≠ ("B", "https://x")
    ∧ ((runDiscoveries "San Francisco, CA" "Coffee Shops" "2026-01-01"
        [(0, { name := "A", website := "https://x" }),
         (1, { name := "B", website := "https://x" })]
        { businesses := [], discoveredWebsitesThisRun := [] }).businesses.map
      fun b => (b.discoveryName, b.discoveryWebsite)) = [("A", "https://x")] := by
  exact ⟨by decide, by decide⟩

/-- Claim C2 (amended): the streaming dedupe key is the discovery website
alone, and discoveries with an empty website are rejected.  Starting from
an empty store, after processing any sequence of discovery events in any
order the store holds exactly one candidate per distinct non-empty
website occurring in the sequence (stored websites are pairwise distinct
and a website is stored iff it is non-empty and occurs in the events),
and candidate ids are unique in the store. -/
theorem c2_amended_streaming_dedupe_by_website
    (loc bt date : String) (events : List (Nat × BusinessDiscovery)) :
    (storeWebsites (runDiscoveries loc bt date events
        { businesses := [], discoveredWebsitesThisRun := [] }).businesses).Nodup
    ∧ (∀ w, w ∈ storeWebsites (runDiscoveries loc bt date events
        { businesses := [], discoveredWebsitesThisRun := [] }).businesses
        ↔ (w ≠ "" ∧ w ∈ events.map fun e => e.2.website))
    ∧ ((runDiscoveries loc bt date events
        { businesses := [], discoveredWebsitesThisRun := [] }).businesses.map
        fun b => b.id).Nodup := by
  have hinv0 : DiscoveryInv { businesses := [], discoveredWebsitesThisRun := [] } := by
    refine ⟨by simp [storeWebsites], ?_, ?_, ?_⟩
    · intro w hw
      cases hw
    · intro b hb
      cases hb
    · intro b hb
      cases hb
  obtain ⟨⟨hnodup, hrun, hne, hid⟩, hmem⟩ :=
    runDiscoveries_characterization loc bt date events _ hinv0
  refine ⟨hnodup, ?_, ?_⟩
  · intro w
    rw [hmem w]
    simp [storeWebsites]
  · have hpair : List.Pairwise
        (fun a b => a.discoveryWebsite ≠ b.discoveryWebsite)
        (runDiscoveries loc bt date events
          { businesses := [], discoveredWebsitesThisRun := [] }).businesses :=
      List.pairwise_map.mp hnodup
    refine List.pairwise_map.mpr (hpair.imp_of_mem ?_)
    intro a b ha hb hneq heq
    obtain ⟨ta, hta⟩ := hid a ha
    obtain ⟨tb, htb⟩ := hid b hb
    have hmk : mkBusinessId ta a.discoveryWebsite = mkBusinessId tb b.discoveryWebsite := by
      rw [← hta, ← htb]
      exact heq
    exact hneq (mkBusinessId_inj_website hmk)

/-- Claim C3 (confirmed): however the fixed input text is chunked, the
streaming parser emits exactly the two well-formed candidates in order;
the malformed middle line emits nothing and the trailing partial line is
buffered until the stream ends, then flushed. -/
theorem c3_streaming_parse_correct (chunks : List (List Char))
    (h : chunks.flatten
      = ("Acme Cafe | https://acme.test\nNot A Line\nBeta Bar | https://beta.test").data) :
    findBusinessesStream chunks
      = [{ name := "Acme Cafe", website := "https://acme.test" },
         { name := "Beta Bar", website := "https://beta.test" }] := by
  unfold findBusinessesStream
  rw [streamFold_characterization chunks [] [] (by simp), h]
  decide

/-- Claim C3 witness: a chunking that splits inside the first name,
inside the malformed line, and before the trailing partial line. -/
theorem c3_streaming_parse_correct_witness :
    findBusinessesStream
      [("Acme Ca").data, ("fe | https://acme.test\nNot A L").data,
       ("ine\nBeta Bar | https://beta.test").data]
      = [{ name := "Acme Cafe", website := "https://acme.test" },
         { name := "Beta Bar", website := "https://beta.test" }] :=
  c3_streaming_parse_correct _ (by decide)

/-- Claim C4 (confirmed): when the enrichment call rejects, the engine
records the failure on the targeted record only — description becomes
'Research failed.' and the in-flight flag clears — and the enclosing
operation returns a store of unchanged size instead of propagating the
error (the embedded operation is total: the rejection is consumed by the
catch branch). -/
theorem c4_enrichment_failure_contained
    (business : Business) (e : String) (geocode : String → Option Coords)
    (s : List Business) (i : Nat) (b : Business) (hs : s[i]? = some b) :
    (processResearchAndGeocoding business (Except.error e) geocode s).length = s.length
    ∧ (processResearchAndGeocoding business (Except.error e) geocode s)[i]?
        = some (if b.id = business.id
                then { b with description := "Research failed.", isResearching := false }
                else b) := by
  constructor
  · simp [processResearchAndGeocoding, applyResearchFailure]
  · by_cases hid : b.id = business.id
    · rw [if_pos hid]
      exact map_update_hit _ _ s i b hs hid
    · rw [if_neg hid]
      exact map_update_frame _ _ s i b hs hid

/-- Claim C4 witness: the containment theorem applied to a two-candidate
store whose first candidate's enrichment rejects. -/
theorem c4_enrichment_failure_contained_witness :
    [sampleEnriched, sampleOther][0]? = some sampleEnriched
    ∧ ((processResearchAndGeocoding sampleEnriched (Except.error "network")
          (fun _ => none) [sampleEnriched, sampleOther]).length
        = [sampleEnriched, sampleOther].length
      ∧ (processResearchAndGeocoding sampleEnriched (Except.error "network")
          (fun _ => none) [sampleEnriched, sampleOther])[0]?
        = some (if sampleEnriched.id = sampleEnriched.id
                then { sampleEnriched with description := "Research failed.", isResearching := false }
                else sampleEnriched)) :=
  ⟨rfl, c4_enrichment_failure_contained sampleEnriched "network" (fun _ => none)
    [sampleEnriched, sampleOther] 0 sampleEnriched rfl⟩

/-- Claim C5 (confirmed): when the discovery stream rejects, `handleSearch`
surfaces the single error banner, the store equals exactly what admission
built from the events delivered before the failure, and in particular
everything admitted after any prefix of the events is still present
(streaming admission only appends; nothing is rolled back). -/
theorem c5_discovery_failure_retains_partial_results
    (loc bt date : String) (events : List (Nat × BusinessDiscovery)) (k : Nat)
    (app : AppState) :
    (handleSearch loc bt date events true app).error = some discoveryErrorMessage
    ∧ (handleSearch loc bt date events true app).businesses
        = (runDiscoveries loc bt date events
            { businesses := app.businesses, discoveredWebsitesThisRun := [] }).businesses
    ∧ ∃ tail, (handleSearch loc bt date events true app).businesses
        = (runDiscoveries loc bt date (events.take k)
            { businesses := app.businesses, discoveredWebsitesThisRun := [] }).businesses
          ++ tail := by
  refine ⟨rfl, rfl, ?_⟩
  have hsplit : runDiscoveries loc bt date events
      { businesses := app.businesses, discoveredWebsitesThisRun := [] }
      = runDiscoveries loc bt date (events.drop k)
          (runDiscoveries loc bt date (events.take k)
            { businesses := app.businesses, discoveredWebsitesThisRun := [] }) := by
    unfold runDiscoveries
    rw [← List.foldl_append, List.take_append_drop]
  obtain ⟨tail, htail⟩ := runDiscoveries_monotone loc bt date (events.drop k)
    (runDiscoveries loc bt date (events.take k)
      { businesses := app.businesses, discoveredWebsitesThisRun := [] })
  refine ⟨tail, ?_⟩
  show (runDiscoveries loc bt date events
      { businesses := app.businesses, discoveredWebsitesThisRun := [] }).businesses = _
  rw [hsplit, htail]

/-- Claim C6 (confirmed): a retry whose enrichment call fails leaves every
previously enriched field of the candidate unchanged (only the
description becomes 'Research failed again.' and the in-flight flag
clears), and during the retry the record only gains the in-flight flag,
so prior fields stay visible throughout. -/
theorem c6_retry_failure_preserves_fields
    (today businessId e : String) (s : List Business) (i : Nat) (b : Business)
    (hs : s[i]? = some b) :
    (markResearching businessId s)[i]?
        = some (if b.id = businessId then { b with isResearching := true } else b)
    ∧ (handleRetryResearch today businessId (Except.error e) s)[i]?
        = some (if b.id = businessId
                then { b with description := "Research failed again.", isResearching := false }
                else b) := by
  constructor
  · by_cases hid : b.id = businessId
    · rw [if_pos hid]
      exact map_update_hit _ _ s i b hs hid
    · rw [if_neg hid]
      exact map_update_frame _ _ s i b hs hid
  · unfold handleRetryResearch
    cases hfind : s.find? (fun x => x.id = businessId) with
    | none =>
      have hall := List.find?_eq_none.mp hfind
      have hbmem : b ∈ s := by
        obtain ⟨hlt, hget⟩ := List.getElem?_eq_some_iff.mp hs
        exact hget ▸ List.getElem_mem hlt
      have hid : ¬ b.id = businessId := by
        intro h
        exact hall b hbmem (by simp [h])
      rw [if_neg hid]
      exact hs
    | some found =>
      by_cases hid : b.id = businessId
      · rw [if_pos hid]
        have h1 := map_update_hit (fun x => { x with isResearching := true })
          businessId s i b hs hid
        exact map_update_hit
          (fun x => { x with description := "Research failed again.", isResearching := false })
          businessId (markResearching businessId s) i
          { b with isResearching := true } h1 hid
      · rw [if_neg hid]
        have h1 := map_update_frame (fun x => { x with isResearching := true })
          businessId s i b hs hid
        exact map_update_frame
          (fun x => { x with description := "Research failed again.", isResearching := false })
          businessId (markResearching businessId s) i b h1 hid

/-- Claim C6 witness: the retry-failure theorem applied to the sample
candidate with enriched phone '555-1234'. -/
theorem c6_retry_failure_preserves_fields_witness :
    [sampleEnriched][0]? = some sampleEnriched
    ∧ ((markResearching "b1" [sampleEnriched])[0]?
        = some (if sampleEnriched.id = "b1"
                then { sampleEnriched with isResearching := true }
                else sampleEnriched)
      ∧ (handleRetryResearch "2026-02-01" "b1" (Except.error "network") [sampleEnriched])[0]?
        = some (if sampleEnriched.id = "b1"
                then { sampleEnriched with description := "Research failed again.", isResearching := false }
                else sampleEnriched)) :=
  ⟨rfl, c6_retry_failure_preserves_fields "2026-02-01" "b1" "network"
    [sampleEnriched] 0 sampleEnriched rfl⟩

/-- Claim C7 (confirmed): every exported cell is the input wrapped in
double quotes with embedded double quotes doubled; the sample description
serializes to the expected cell; and unescaping under standard CSV
quoting rules recovers the original string for every input. -/
theorem c7_csv_escape_roundtrip :
    escapeCsvCell ("He said \"hi\", then left").data
        = ("\"He said \"\"hi\"\", then left\"").data
    ∧ csvParseCell (escapeCsvCell ("He said \"hi\", then left").data)
        = some ("He said \"hi\", then left").data
    ∧ ∀ s : List Char, csvParseCell (escapeCsvCell s) = some s :=
  ⟨by decide, by decide, csvParseCell_escapeCsvCell⟩

/-- Claim C8 counterexample: the claim fixes the column order with
Website before Description, but the streaming-only App iteration of
`exportToCsv` (the variant at the cited lines) emits Description as the
sixth column where the fixed order demands Website. -/
theorem c8_stream_app_header_order_differs :
    csvHeadersStreamApp[5]? = some "Description"
    ∧ specCsvColumnOrder[5]? = some "Website"
    ∧ csvHeadersStreamApp ≠ specCsvColumnOrder :=
  ⟨by decide, by decide, by decide⟩

/-- Claim C8 (amended): the two map-capable App iterations export in the
specified fixed order, while the streaming-only iteration swaps
Description (column 6) and Website (column 7); in every iteration each
row has exactly one cell per header and the cells under the Website and
Description headers are the record's website and description. -/
theorem c8_amended_csv_column_orders :
    csvHeaders = specCsvColumnOrder
    ∧ csvHeadersStreamApp.indexOf "Description" = 5
    ∧ csvHeadersStreamApp.indexOf "Website" = 6
    ∧ ∀ b : Business,
        (csvRow b).length = csvHeaders.length
        ∧ (csvRowStreamApp b).length = csvHeadersStreamApp.length
        ∧ (csvRow b)[csvHeaders.indexOf "Website"]? = some b.discoveryWebsite
        ∧ (csvRow b)[csvHeaders.indexOf "Description"]? = some b.description
        ∧ (csvRowStreamApp b)[csvHeadersStreamApp.indexOf "Website"]? = some b.discoveryWebsite
        ∧ (csvRowStreamApp b)[csvHeadersStreamApp.indexOf "Description"]? = some b.description := by
  refine ⟨rfl, by decide, by decide, ?_⟩
  intro b
  exact ⟨rfl, rfl, rfl, rfl, rfl, rfl⟩

/-- Claim C9 (confirmed): a missing API key is recoverable — the places
request returns a rejection value instead of crashing, geocoding returns
null, and an enrichment that runs with the key absent still merges its
research data, merely without coordinates (geospatial features are
skipped, not fatal). -/
theorem c9_missing_key_degraded_mode (α : Type) (fetchResult : FetchResult α)
    (geoFetch : Option GeoResponse) (address : String)
    (business : Business) (rd : ResearchedBusinessData) (s : List Business) :
    makePlacesRequest none fetchResult
        = Except.error "Google Maps API key is not configured"
    ∧ geocodeAddress none geoFetch address = none
    ∧ processResearchAndGeocoding business (Except.ok rd)
        (geocodeAddress none geoFetch) s
        = applyResearchSuccess business.id rd none s := by
  refine ⟨rfl, rfl, ?_⟩
  show applyResearchSuccess business.id rd
      (if shouldGeocode rd then geocodeAddress none geoFetch rd.address else none) s
    = applyResearchSuccess business.id rd none s
  have hnone : (if shouldGeocode rd then geocodeAddress none geoFetch rd.address else none)
      = (none : Option Coords) := by
    split <;> rfl
  rw [hnone]

/-- Claim C10 (confirmed): enrichment success, enrichment failure, retry
failure and the retry in-flight mark each update only the record whose id
matches the target; every record with a different id is unchanged at its
position and the store's length (hence order) is preserved. -/
theorem c10_merge_by_id_frame (tid : String) (rd : ResearchedBusinessData)
    (co : Option Coords) (s : List Business) (i : Nat) (b : Business)
    (hs : s[i]? = some b) (hne : b.id ≠ tid) :
    ((applyResearchSuccess tid rd co s).length = s.length
      ∧ (applyResearchSuccess tid rd co s)[i]? = some b)
    ∧ ((applyResearchFailure tid s).length = s.length
      ∧ (applyResearchFailure tid s)[i]? = some b)
    ∧ ((applyRetryFailure tid s).length = s.length
      ∧ (applyRetryFailure tid s)[i]? = some b)
    ∧ ((markResearching tid s).length = s.length
      ∧ (markResearching tid s)[i]? = some b) := by
  refine ⟨⟨?_, ?_⟩, ⟨?_, ?_⟩, ⟨?_, ?_⟩, ⟨?_, ?_⟩⟩
  · simp [applyResearchSuccess]
  · exact map_update_frame _ tid s i b hs hne
  · simp [applyResearchFailure]
  · exact map_update_frame _ tid s i b hs hne
  · simp [applyRetryFailure]
  · exact map_update_frame _ tid s i b hs hne
  · simp [markResearching]
  · exact map_update_frame _ tid s i b hs hne

/-- Claim C10 witness: the frame theorem applied to a store holding the
second sample candidate while the first candidate's id is targeted. -/
theorem c10_merge_by_id_frame_witness :
    ([sampleOther][0]? = some sampleOther ∧ sampleOther.id ≠ "b1")
    ∧ (((applyResearchSuccess "b1" sampleNotFoundResearch none [sampleOther]).length
          = [sampleOther].length
      ∧ (applyResearchSuccess "b1" sampleNotFoundResearch none [sampleOther])[0]?
          = some sampleOther)
    ∧ ((applyResearchFailure "b1" [sampleOther]).length = [sampleOther].length
      ∧ (applyResearchFailure "b1" [sampleOther])[0]? = some sampleOther)
    ∧ ((applyRetryFailure "b1" [sampleOther]).length = [sampleOther].length
      ∧ (applyRetryFailure "b1" [sampleOther])[0]? = some sampleOther)
    ∧ ((markResearching "b1" [sampleOther]).length = [sampleOther].length
      ∧ (markResearching "b1" [sampleOther])[0]? = some sampleOther)) :=
  ⟨⟨rfl, by decide⟩, c10_merge_by_id_frame "b1" sampleNotFoundResearch none
    [sampleOther] 0 sampleOther rfl (by decide)⟩

end LeadFinder
